import Mathlib

/-!
Shallow embedding of the topo-map-plotz terrain pipeline
(`src/main.js`, `src/unnamed/part_000`): multi-octave height synthesis,
the permutation-table noise constructor, the SVG projection /
visibility / emission pipeline, and the regeneration operation.
-/

namespace TopoMap

/-! ### Height-field synthesis (`generateHeight`, lines 116-127 of part_000)

The noise function is a parameter (in the source it is `this.noise.noise`);
the scalar type is any field so the same definition serves the executable
rational model and the real-valued application state. -/

/-- `generateHeight(x, y)` from the source: three octaves of noise at a fixed
scale 0.5, frequencies ×1, ×2, ×4, amplitudes 1.0, 0.5, 0.25, with the seed
added to both coordinates of every octave; accumulated with `height += ...`. -/
def generateHeight {K : Type} [Field K] (noise : K → K → K) (seed x y : K) : K :=
  let scale : K := 0.5
  let height : K := 0
  let height := height + noise (x * scale + seed) (y * scale + seed) * 1.0
  let height := height + noise (x * scale * 2 + seed) (y * scale * 2 + seed) * 0.5
  let height := height + noise (x * scale * 4 + seed) (y * scale * 4 + seed) * 0.25
  height

/-! ### Terrain vertex buffer update (`updateTerrain`, lines 228-236)

The geometry's position attribute is a flat array `[x0, y0, z0, x1, y1, z1, ...]`;
the loop walks it with stride 3 and overwrites only the third slot of each
triple with a freshly synthesized height. -/

/-- The stride-3 loop body of `updateTerrain`: each complete `x :: y :: z`
triple keeps `x` and `y` and gets a new `z`; a trailing fragment shorter than
a triple is left as is (the source's out-of-bounds write is discarded by the
typed array). -/
def updateVertices {K : Type} [Field K] (noise : K → K → K) (seed : K) :
    List K → List K
  | x :: y :: _z :: rest =>
      x :: y :: generateHeight noise seed x y :: updateVertices noise seed rest
  | l => l

/-- The (x, y) components of a flat stride-3 vertex buffer, in order;
the z slots are dropped. -/
def xyParts {K : Type} : List K → List K
  | x :: y :: _z :: rest => x :: y :: xyParts rest
  | l => l

/-- The mesh state `updateTerrain` touches: the flat position array, the
triangle index array, and the `needsUpdate` flag it sets. -/
structure TerrainGeometry (K : Type) where
  position : List K
  index : List ℕ
  needsUpdate : Bool

/-- `updateTerrain()` from the source: rewrite every vertex height from the
current noise and seed, leave the index list alone, and mark the position
attribute dirty. -/
def updateTerrain {K : Type} [Field K] (noise : K → K → K) (seed : K)
    (g : TerrainGeometry K) : TerrainGeometry K :=
  { position := updateVertices noise seed g.position
    index := g.index
    needsUpdate := true }

/-- A sequence of height-repopulation calls, each with its own noise function
and seed, applied left to right. -/
def applyRegenerations {K : Type} [Field K]
    (calls : List ((K → K → K) × K)) (g : TerrainGeometry K) : TerrainGeometry K :=
  calls.foldl (fun g c => updateTerrain c.1 c.2 g) g

theorem xyParts_updateVertices {K : Type} [Field K]
    (noise : K → K → K) (seed : K) :
    ∀ l : List K, xyParts (updateVertices noise seed l) = xyParts l
  | _x :: _y :: _z :: rest => by
      simp [updateVertices, xyParts, xyParts_updateVertices noise seed rest]
  | [] => rfl
  | [_x] => rfl
  | [_x, _y] => rfl

/-- Helper: the accumulated height written as one sum. -/
theorem generateHeight_unfold {K : Type} [Field K]
    (noise : K → K → K) (seed x y : K) :
    generateHeight noise seed x y =
      noise (x * 0.5 + seed) (y * 0.5 + seed) * 1.0
        + noise (x * 0.5 * 2 + seed) (y * 0.5 * 2 + seed) * 0.5
        + noise (x * 0.5 * 4 + seed) (y * 0.5 * 4 + seed) * 0.25 := by
  simp [generateHeight]

/-- C1: the height function is the unweighted sum of exactly three octave
samples: `noise(x*0.5 + seed, y*0.5 + seed) * 1.0 + noise(x*0.5*2 + seed,
y*0.5*2 + seed) * 0.5 + noise(x*0.5*4 + seed, y*0.5*4 + seed) * 0.25` —
frequencies ×1, ×2, ×4 of the fixed 0.5 scale, amplitudes 1.0, 0.5, 0.25,
with the seed offsetting both axes of every octave. -/
theorem generateHeight_eq_three_octaves
    (noise : ℚ → ℚ → ℚ) (seed x y : ℚ) :
    generateHeight noise seed x y =
      noise (x * 0.5 + seed) (y * 0.5 + seed) * 1.0
        + noise (x * 0.5 * 2 + seed) (y * 0.5 * 2 + seed) * 0.5
        + noise (x * 0.5 * 4 + seed) (y * 0.5 * 4 + seed) * 0.25 := by
  simp [generateHeight]

/-- C9: if every noise sample lies in [-1, 1] then the height lies in
[-1.75, 1.75]: the octave amplitudes 1.0, 0.5, 0.25 sum to 1.75 and no
normalization is applied. -/
theorem generateHeight_bounded
    (noise : ℚ → ℚ → ℚ) (hnoise : ∀ a b : ℚ, |noise a b| ≤ 1)
    (seed x y : ℚ) :
    |generateHeight noise seed x y| ≤ 1.75 := by
  have h1 := hnoise (x * 0.5 + seed) (y * 0.5 + seed)
  have h2 := hnoise (x * 0.5 * 2 + seed) (y * 0.5 * 2 + seed)
  have h3 := hnoise (x * 0.5 * 4 + seed) (y * 0.5 * 4 + seed)
  rw [generateHeight_unfold]
  have habs : ∀ (a : ℚ), |a| ≤ 1 → ∀ c : ℚ, 0 ≤ c → |a * c| ≤ c := by
    intro a ha c hc
    rw [abs_mul, abs_of_nonneg hc]
    calc |a| * c ≤ 1 * c := by
          exact mul_le_mul_of_nonneg_right ha hc
      _ = c := one_mul c
  calc |noise (x * 0.5 + seed) (y * 0.5 + seed) * 1.0
        + noise (x * 0.5 * 2 + seed) (y * 0.5 * 2 + seed) * 0.5
        + noise (x * 0.5 * 4 + seed) (y * 0.5 * 4 + seed) * 0.25|
      ≤ |noise (x * 0.5 + seed) (y * 0.5 + seed) * 1.0
          + noise (x * 0.5 * 2 + seed) (y * 0.5 * 2 + seed) * 0.5|
        + |noise (x * 0.5 * 4 + seed) (y * 0.5 * 4 + seed) * 0.25| :=
        abs_add _ _
    _ ≤ (|noise (x * 0.5 + seed) (y * 0.5 + seed) * 1.0|
          + |noise (x * 0.5 * 2 + seed) (y * 0.5 * 2 + seed) * 0.5|)
        + |noise (x * 0.5 * 4 + seed) (y * 0.5 * 4 + seed) * 0.25| := by
        exact add_le_add_right (abs_add _ _) _
    _ ≤ (1.0 + 0.5) + 0.25 := by
        have b1 := habs _ h1 1.0 (by norm_num)
        have b2 := habs _ h2 0.5 (by norm_num)
        have b3 := habs _ h3 0.25 (by norm_num)
        exact add_le_add (add_le_add b1 b2) b3
    _ = 1.75 := by norm_num

/-- Witness for the height bound at a concrete instance: the constant-zero
noise is bounded by 1, and the bound holds for it at seed 0, (x, y) = (0, 0). -/
theorem generateHeight_bounded_witness :
    (∀ a b : ℚ, |(fun (_ _ : ℚ) => (0 : ℚ)) a b| ≤ 1) ∧
      |generateHeight (fun (_ _ : ℚ) => (0 : ℚ)) 0 0 0| ≤ 1.75 :=
  ⟨fun a b => by norm_num,
   generateHeight_bounded (fun (_ _ : ℚ) => (0 : ℚ)) (fun a b => by norm_num) 0 0 0⟩

/-- C5: any sequence of height-repopulation calls changes only z slots:
the (x, y) components of every vertex and the whole triangle index list are
identical before and after. -/
theorem updateTerrain_topology_invariant
    (calls : List ((ℚ → ℚ → ℚ) × ℚ)) (g : TerrainGeometry ℚ) :
    xyParts (applyRegenerations calls g).position = xyParts g.position ∧
      (applyRegenerations calls g).index = g.index := by
  induction calls generalizing g with
  | nil => exact ⟨rfl, rfl⟩
  | cons c rest ih =>
      have h := ih (updateTerrain c.1 c.2 g)
      refine ⟨?_, ?_⟩
      · calc xyParts (applyRegenerations (c :: rest) g).position
            = xyParts (updateTerrain c.1 c.2 g).position := h.1
          _ = xyParts g.position := xyParts_updateVertices c.1 c.2 g.position
      · exact h.2

/-! ### JS numbers

The projection / emission pipeline runs on JavaScript numbers, which include
the non-finite values NaN and ±Infinity; those are observable (claim about
non-finite inputs reaching the path string), so the pipeline is embedded over
rationals extended with the three non-finite values, with IEEE-style
propagation for the operations the pipeline uses. -/

inductive JSNum where
  | num (q : ℚ)
  | nan
  | inf
  | ninf
deriving DecidableEq

namespace JSNum

/-- JS addition on the embedded numbers. -/
def jadd : JSNum → JSNum → JSNum
  | num a, num b => num (a + b)
  | nan, _ => nan
  | _, nan => nan
  | inf, ninf => nan
  | ninf, inf => nan
  | inf, _ => inf
  | _, inf => inf
  | ninf, _ => ninf
  | _, ninf => ninf

/-- JS multiplication: NaN propagates, Infinity times zero is NaN,
signs multiply. -/
def jmul : JSNum → JSNum → JSNum
  | num a, num b => num (a * b)
  | nan, _ => nan
  | _, nan => nan
  | inf, inf => inf
  | inf, ninf => ninf
  | ninf, inf => ninf
  | ninf, ninf => inf
  | inf, num b => if 0 < b then inf else if b < 0 then ninf else nan
  | num a, inf => if 0 < a then inf else if a < 0 then ninf else nan
  | ninf, num b => if 0 < b then ninf else if b < 0 then inf else nan
  | num a, ninf => if 0 < a then ninf else if a < 0 then inf else nan

/-- JS division: NaN propagates, finite/0 is a signed infinity (0/0 is NaN),
finite/Infinity is 0, Infinity/Infinity is NaN. -/
def jdiv : JSNum → JSNum → JSNum
  | num a, num b =>
      if b ≠ 0 then num (a / b)
      else if 0 < a then inf else if a < 0 then ninf else nan
  | nan, _ => nan
  | _, nan => nan
  | inf, num b => if 0 ≤ b then inf else ninf
  | ninf, num b => if 0 ≤ b then ninf else inf
  | num _, inf => num 0
  | num _, ninf => num 0
  | inf, inf => nan
  | inf, ninf => nan
  | ninf, inf => nan
  | ninf, ninf => nan

/-- JS unary negation. -/
def jneg : JSNum → JSNum
  | num a => num (-a)
  | nan => nan
  | inf => ninf
  | ninf => inf

/-- The JS `<` comparison: any comparison involving NaN is false. -/
def jlt : JSNum → JSNum → Bool
  | num a, num b => decide (a < b)
  | nan, _ => false
  | _, nan => false
  | ninf, ninf => false
  | inf, inf => false
  | ninf, _ => true
  | _, inf => true
  | inf, _ => false
  | _, ninf => false

/-- JS number-to-string coercion as used by the template literals; a finite
value prints its rational form, the non-finite values print as in JS. -/
def jstr : JSNum → String
  | num a => toString a
  | nan => "NaN"
  | inf => "Infinity"
  | ninf => "-Infinity"

end JSNum

open JSNum

/-- A projected screen-space point as pushed by `projectToSVG`: pixel x, y
and the passed-through depth z. -/
structure Pt where
  x : JSNum
  y : JSNum
  z : JSNum
deriving DecidableEq

/-- A 3D vector handed to the camera transform (`THREE.Vector3`). -/
structure JVec3 where
  x : JSNum
  y : JSNum
  z : JSNum

/-- `isTriangleVisible(a, b, c)` (lines 218-220): `a.z < 1 && b.z < 1 && c.z < 1`. -/
def isTriangleVisible (a b c : Pt) : Bool :=
  jlt a.z (num 1) && jlt b.z (num 1) && jlt c.z (num 1)

/-- The body of the `projectToSVG` loop: build a vector from three
consecutive position slots, transform it (matrixWorld followed by camera
projection, both abstracted as `transform`), and map NDC to pixel space. -/
def svgPoint (transform : JVec3 → JVec3) (w h : JSNum) (x y z : JSNum) : Pt :=
  let v := transform ⟨x, y, z⟩
  { x := jdiv (jmul (jadd v.x (num 1)) w) (num 2)
    y := jdiv (jmul (jadd (jneg v.y) (num 1)) h) (num 2)
    z := v.z }

/-- `projectToSVG()` (lines 169-192): walk the flat position array with
stride 3 and project each vertex; a trailing fragment is padded with 0
(the `Vector3` constructor's default for missing components). -/
def projectToSVG (transform : JVec3 → JVec3) (w h : JSNum) :
    List JSNum → List Pt
  | x :: y :: z :: rest =>
      svgPoint transform w h x y z :: projectToSVG transform w h rest
  | [x, y] => [svgPoint transform w h x y (num 0)]
  | [x] => [svgPoint transform w h x (num 0) (num 0)]
  | [] => []

/-- The 3D vertices read by the projection loop, one per stride-3 group of
the flat position array, with the same 0-padding for a trailing fragment. -/
def vertexTriples : List JSNum → List JVec3
  | x :: y :: z :: rest => ⟨x, y, z⟩ :: vertexTriples rest
  | [x, y] => [⟨x, y, num 0⟩]
  | [x] => [⟨x, num 0, num 0⟩]
  | [] => []

/-- C3: every point produced for export satisfies the viewport mapping of
its normalized device coordinates: `x = (ndc.x + 1) * w / 2`,
`y = (-ndc.y + 1) * h / 2`, and `z = ndc.z` unchanged. -/
theorem projectToSVG_ndc_mapping (transform : JVec3 → JVec3) (w h : JSNum) :
    ∀ l : List JSNum,
      projectToSVG transform w h l =
        (vertexTriples l).map (fun t =>
          { x := jdiv (jmul (jadd (transform t).x (num 1)) w) (num 2)
            y := jdiv (jmul (jadd (jneg (transform t).y) (num 1)) h) (num 2)
            z := (transform t).z })
  | _x :: _y :: _z :: rest => by
      simp [projectToSVG, vertexTriples, svgPoint,
        projectToSVG_ndc_mapping transform w h rest]
  | [] => rfl
  | [_x] => rfl
  | [_x, _y] => rfl

/-- C2: the visibility test holds iff all three depths are strictly below 1,
and the spec's concrete boundary cases behave as stated. -/
theorem isTriangleVisible_iff :
    (∀ (x1 y1 x2 y2 x3 y3 : JSNum) (za zb zc : ℚ),
        isTriangleVisible ⟨x1, y1, num za⟩ ⟨x2, y2, num zb⟩ ⟨x3, y3, num zc⟩ = true
          ↔ za < 1 ∧ zb < 1 ∧ zc < 1)
    ∧ isTriangleVisible ⟨num 0, num 0, num 0.5⟩ ⟨num 0, num 0, num 0.5⟩
        ⟨num 0, num 0, num 1.0⟩ = false
    ∧ isTriangleVisible ⟨num 0, num 0, num 0.5⟩ ⟨num 0, num 0, num 0.5⟩
        ⟨num 0, num 0, num 0.999⟩ = true := by
  refine ⟨?_, by norm_num [isTriangleVisible, jlt], by norm_num [isTriangleVisible, jlt]⟩
  intro x1 y1 x2 y2 x3 y3 za zb zc
  simp [isTriangleVisible, jlt, and_assoc]

/-! ### SVG emission (`generateSVG`, lines 194-216) -/

/-- The path-command group emitted for one visible triangle — the template
literal of the loop body. -/
def trianglePath (a b c : Pt) : String :=
  "M" ++ jstr a.x ++ "," ++ jstr a.y ++ " L" ++ jstr b.x ++ "," ++ jstr b.y
    ++ " L" ++ jstr c.x ++ "," ++ jstr c.y ++ " Z "

/-- The projected point looked up for one triangle-corner index; a lookup
past the end of the point list stands for the JS `undefined` (excluded for
well-formed meshes by the index-range hypothesis of the emission theorem). -/
def lookupPt (points : List Pt) (i : ℕ) : Pt :=
  points.getD i ⟨nan, nan, nan⟩

/-- The `generateSVG` accumulation loop: walk the flat index array with
stride 3 and append one closed group per triangle that passes
`isTriangleVisible` to the accumulated path string. -/
def svgPathsLoop (points : List Pt) : List ℕ → String → String
  | ia :: ib :: ic :: rest, paths =>
      let a := lookupPt points ia
      let b := lookupPt points ib
      let c := lookupPt points ic
      svgPathsLoop points rest
        (if isTriangleVisible a b c then paths ++ trianglePath a b c else paths)
  | _, paths => paths

/-- `generateSVG(points)`: the accumulated path data wrapped in the fixed
SVG document template. -/
def generateSVG (w h : JSNum) (points : List Pt) (indices : List ℕ) : String :=
  let paths := svgPathsLoop points indices ""
  "<?xml version=\"1.0\" encoding=\"UTF-8\"?>\n            <svg width=\""
    ++ jstr w ++ "\" height=\"" ++ jstr h
    ++ "\" xmlns=\"http://www.w3.org/2000/svg\">\n                <path d=\""
    ++ paths
    ++ "\" stroke=\"black\" fill=\"none\" stroke-width=\"0.5\"/>\n            </svg>"

/-- The triangles of the mesh: consecutive triples of the flat index array. -/
def trianglesFrom : List ℕ → List (ℕ × ℕ × ℕ)
  | a :: b :: c :: rest => (a, b, c) :: trianglesFrom rest
  | _ => []

/-- Whether a triangle, given by its corner indices, passes the visibility
filter. -/
def triVisible (points : List Pt) (t : ℕ × ℕ × ℕ) : Bool :=
  isTriangleVisible (lookupPt points t.1) (lookupPt points t.2.1)
    (lookupPt points t.2.2)

/-- The path group of a triangle given by its corner indices. -/
def triPath (points : List Pt) (t : ℕ × ℕ × ℕ) : String :=
  trianglePath (lookupPt points t.1) (lookupPt points t.2.1)
    (lookupPt points t.2.2)

/-- Concatenation of a list of path groups, in order. -/
def concatGroups : List String → String
  | [] => ""
  | g :: gs => g ++ concatGroups gs

theorem svgPathsLoop_concat (points : List Pt) :
    ∀ (indices : List ℕ) (acc : String),
      svgPathsLoop points indices acc =
        acc ++ concatGroups
          (((trianglesFrom indices).filter (triVisible points)).map (triPath points))
  | ia :: ib :: ic :: rest, acc => by
      have ih := svgPathsLoop_concat points rest
      by_cases hv :
          isTriangleVisible (lookupPt points ia) (lookupPt points ib)
            (lookupPt points ic) = true
      · simp only [svgPathsLoop, trianglesFrom, List.filter_cons, triVisible, hv,
          if_pos, List.map_cons, concatGroups, ih, triPath]
        simp [String.append_assoc]
      · rw [show svgPathsLoop points (ia :: ib :: ic :: rest) acc
              = svgPathsLoop points rest acc by
            simp only [svgPathsLoop]
            rw [if_neg hv]]
        simp only [trianglesFrom, List.filter_cons, triVisible]
        rw [if_neg (by simpa using hv)]
        exact ih acc
  | [], acc => by simp [svgPathsLoop, trianglesFrom, concatGroups]
  | [_a], acc => by simp [svgPathsLoop, trianglesFrom, concatGroups]
  | [_a, _b], acc => by simp [svgPathsLoop, trianglesFrom, concatGroups]

/-- C4: for a well-formed mesh (index count a multiple of 3, all indices in
range), the emitted document is the fixed template wrapping exactly the
concatenation, in mesh index order, of one closed `M ... L ... L ... Z `
group per triangle accepted by the visibility filter; the number of emitted
groups never exceeds the mesh's triangle count. -/
theorem generateSVG_emission (w h : JSNum) (points : List Pt) (indices : List ℕ)
    (h3 : indices.length % 3 = 0) (hidx : ∀ i ∈ indices, i < points.length) :
    generateSVG w h points indices =
      "<?xml version=\"1.0\" encoding=\"UTF-8\"?>\n            <svg width=\""
        ++ jstr w ++ "\" height=\"" ++ jstr h
        ++ "\" xmlns=\"http://www.w3.org/2000/svg\">\n                <path d=\""
        ++ concatGroups
            (((trianglesFrom indices).filter (triVisible points)).map (triPath points))
        ++ "\" stroke=\"black\" fill=\"none\" stroke-width=\"0.5\"/>\n            </svg>"
    ∧ ((trianglesFrom indices).filter (triVisible points)).length
        ≤ (trianglesFrom indices).length := by
  constructor
  · unfold generateSVG
    rw [svgPathsLoop_concat points indices ""]
    simp
  · exact List.length_filter_le _ _

/-- Witness for the emission theorem at a concrete well-formed mesh: one
triangle over three projected points, with the hypotheses discharged by
evaluation. -/
theorem generateSVG_emission_witness :
    (([0, 1, 2] : List ℕ).length % 3 = 0 ∧
      ∀ i ∈ ([0, 1, 2] : List ℕ),
        i < ([⟨num 0, num 0, num 0⟩, ⟨num 1, num 0, num 0⟩,
              ⟨num 0, num 1, num 0⟩] : List Pt).length) ∧
    (generateSVG (num 800) (num 600)
        [⟨num 0, num 0, num 0⟩, ⟨num 1, num 0, num 0⟩, ⟨num 0, num 1, num 0⟩]
        [0, 1, 2] =
      "<?xml version=\"1.0\" encoding=\"UTF-8\"?>\n            <svg width=\""
        ++ jstr (num 800) ++ "\" height=\"" ++ jstr (num 600)
        ++ "\" xmlns=\"http://www.w3.org/2000/svg\">\n                <path d=\""
        ++ concatGroups
            (((trianglesFrom [0, 1, 2]).filter
              (triVisible [⟨num 0, num 0, num 0⟩, ⟨num 1, num 0, num 0⟩,
                ⟨num 0, num 1, num 0⟩])).map
              (triPath [⟨num 0, num 0, num 0⟩, ⟨num 1, num 0, num 0⟩,
                ⟨num 0, num 1, num 0⟩]))
        ++ "\" stroke=\"black\" fill=\"none\" stroke-width=\"0.5\"/>\n            </svg>"
    ∧ ((trianglesFrom [0, 1, 2]).filter
        (triVisible [⟨num 0, num 0, num 0⟩, ⟨num 1, num 0, num 0⟩,
          ⟨num 0, num 1, num 0⟩])).length
        ≤ (trianglesFrom [0, 1, 2]).length) :=
  ⟨⟨by decide, by decide⟩,
    generateSVG_emission (num 800) (num 600)
      [⟨num 0, num 0, num 0⟩, ⟨num 1, num 0, num 0⟩, ⟨num 0, num 1, num 0⟩]
      [0, 1, 2] (by decide) (by decide)⟩

/-- The projected points of C8's failing input: the first vertex carries a
NaN x coordinate; all depths are finite and below 1, so the triangle passes
the visibility filter. -/
def nanPoints : List Pt :=
  [⟨nan, num 0, num 0⟩, ⟨num 0, num 0, num 0⟩, ⟨num 1, num 1, num 0⟩]

/-- C8 evaluation: on a vertex with a non-finite coordinate the pipeline
does not fail — the triangle passes the depth test and the literal text
`NaN` is silently concatenated into the shared path string, with no error
value anywhere in the output. -/
theorem generateSVG_nan_silently_emitted :
    svgPathsLoop nanPoints [0, 1, 2] "" = "MNaN,0 L0,0 L1,1 Z "
    ∧ triVisible nanPoints (0, 1, 2) = true := by
  constructor <;> decide

/-! ### Noise construction (`makeNoise2D`, lines 4-42 of part_000)

`makeNoise2D(random)` shuffles the identity table `p = [0..255]` with a
Fisher-Yates loop driven by `random`, duplicates it into the 512-entry
`perm` and `permMod12` tables, and returns a sample closure. The random
source is embedded as a stream of rationals (`random : ℕ → ℚ`, call `k`
returning the value of the `k`-th `random()` call); the `Math.random`
contract (values in `[0, 1)`) is a hypothesis of the table theorem, and the
out-of-contract branch mirrors the typed array's behavior (an out-of-bounds
read is `undefined`, coerced to 0 on store; an out-of-bounds store is
dropped). -/

/-- One in-range Fisher-Yates swap: `q = p[i]; p[i] = p[n]; p[n] = q`. -/
def fyStepGood (p : Fin 256 → ℕ) (a b : Fin 256) : Fin 256 → ℕ :=
  Function.update (Function.update p a (p b)) b (p a)

/-- The Fisher-Yates loop of `makeNoise2D`, counting the loop variable down;
`fyAux random i p` runs the iterations `i, i-1, ..., 1` (the source starts at
`i = 255`). The `k`-th `random()` call happens at loop index `255 - k`. -/
def fyAux (random : ℕ → ℚ) : ℕ → (Fin 256 → ℕ) → (Fin 256 → ℕ)
  | 0, p => p
  | i + 1, p =>
      let nInt : ℤ := ⌊((i : ℚ) + 2) * random (254 - i)⌋
      let p' :=
        if h : 0 ≤ nInt ∧ nInt < 256 then
          fyStepGood p ⟨(i + 1) % 256, Nat.mod_lt _ (by norm_num)⟩
            ⟨nInt.toNat, by omega⟩
        else
          Function.update p ⟨(i + 1) % 256, Nat.mod_lt _ (by norm_num)⟩ 0
      fyAux random i p'

/-- The shuffled 256-entry table `p` of `makeNoise2D`: the identity sequence
`[0..255]` after the full Fisher-Yates pass. -/
def jsShuffle (random : ℕ → ℚ) : Fin 256 → ℕ :=
  fyAux random 255 (fun i => (i : ℕ))

/-- The 512-entry `perm` table: `perm[i] = p[i & 255]`. -/
def permTable (random : ℕ → ℚ) (i : Fin 512) : ℕ :=
  jsShuffle random ⟨i.val % 256, Nat.mod_lt _ (by norm_num)⟩

/-- The 512-entry `permMod12` table: `permMod12[i] = perm[i] % 12`. -/
def permMod12Table (random : ℕ → ℚ) (i : Fin 512) : ℕ :=
  permTable random i % 12

/-- The sample closure returned by `makeNoise2D`: the skew transform of
simplex noise followed by the source's trigonometric combination
`n0 * (sin x0 + cos y0) * 0.5`. Note the body mentions neither `perm` nor
`permMod12`. -/
noncomputable def noiseSample (x y : ℝ) : ℝ :=
  let F2 : ℝ := 0.5 * (Real.sqrt 3.0 - 1.0)
  let G2 : ℝ := (3.0 - Real.sqrt 3.0) / 6.0
  let s := (x + y) * F2
  let i : ℤ := ⌊x + s⌋
  let j : ℤ := ⌊y + s⌋
  let t := ((i : ℝ) + (j : ℝ)) * G2
  let X0 := (i : ℝ) - t
  let Y0 := (j : ℝ) - t
  let x0 := x - X0
  let y0 := y - Y0
  let n0 := x0 * x0 + y0 * y0
  n0 * (Real.sin x0 + Real.cos y0) * 0.5

/-- The noise object built by `makeNoise2D`: the closure together with its
captured environment (the two tables the closure could have read). -/
structure Noise2D where
  perm : Fin 512 → ℕ
  permMod12 : Fin 512 → ℕ
  noise : ℝ → ℝ → ℝ

/-- `makeNoise2D(random)`: build `p`, derive `perm` and `permMod12`, and
return the sample closure. -/
noncomputable def makeNoise2D (random : ℕ → ℚ) : Noise2D :=
  { perm := permTable random
    permMod12 := permMod12Table random
    noise := noiseSample }

/-- An in-range swap step is composition with a transposition. -/
theorem fyStepGood_comp (e : Equiv.Perm (Fin 256)) (a b : Fin 256) :
    fyStepGood (fun k => ((e k : Fin 256) : ℕ)) a b =
      fun k => ((e (Equiv.swap a b k) : Fin 256) : ℕ) := by
  funext k
  unfold fyStepGood
  rcases eq_or_ne k b with hb | hb
  · subst hb
    simp [Equiv.swap_apply_right]
  · rcases eq_or_ne k a with ha | ha
    · subst ha
      simp [Function.update_apply, hb, Equiv.swap_apply_left]
    · simp [Function.update_apply, hb, ha, Equiv.swap_apply_of_ne_of_ne ha hb]

/-- Under the `Math.random` contract the loop keeps the table a permutation:
the result is the initial permutation composed with transpositions. -/
theorem fyAux_perm (random : ℕ → ℚ)
    (hr : ∀ k, 0 ≤ random k ∧ random k < 1) :
    ∀ i : ℕ, i ≤ 255 → ∀ e : Equiv.Perm (Fin 256),
      ∃ e' : Equiv.Perm (Fin 256),
        fyAux random i (fun k => ((e k : Fin 256) : ℕ)) =
          fun k => ((e' k : Fin 256) : ℕ)
  | 0, _, e => ⟨e, rfl⟩
  | i + 1, hi, e => by
      have h0 : (0 : ℚ) ≤ random (254 - i) := (hr (254 - i)).1
      have h1 : random (254 - i) < 1 := (hr (254 - i)).2
      have hge : (0 : ℤ) ≤ ⌊((i : ℚ) + 2) * random (254 - i)⌋ := by
        apply Int.floor_nonneg.mpr
        positivity
      have hlt : ⌊((i : ℚ) + 2) * random (254 - i)⌋ < 256 := by
        apply Int.floor_lt.mpr
        push_cast
        calc ((i : ℚ) + 2) * random (254 - i) < ((i : ℚ) + 2) * 1 := by
              apply mul_lt_mul_of_pos_left h1
              positivity
          _ = (i : ℚ) + 2 := mul_one _
          _ ≤ 256 := by
              have : (i : ℚ) ≤ 254 := by exact_mod_cast (by omega : i ≤ 254)
              linarith
      rw [show fyAux random (i + 1) (fun k => ((e k : Fin 256) : ℕ)) =
            fyAux random i
              (fyStepGood (fun k => ((e k : Fin 256) : ℕ))
                ⟨(i + 1) % 256, Nat.mod_lt _ (by norm_num)⟩
                ⟨(⌊((i : ℚ) + 2) * random (254 - i)⌋).toNat, by omega⟩) by
        simp only [fyAux]
        rw [dif_pos ⟨hge, hlt⟩]]
      rw [fyStepGood_comp]
      exact fyAux_perm random hr i (by omega)
        ((Equiv.swap ⟨(i + 1) % 256, Nat.mod_lt _ (by norm_num)⟩
          ⟨(⌊((i : ℚ) + 2) * random (254 - i)⌋).toNat, by omega⟩).trans e)

/-- The shuffled table is a permutation of `[0..255]`. -/
theorem jsShuffle_perm (random : ℕ → ℚ)
    (hr : ∀ k, 0 ≤ random k ∧ random k < 1) :
    ∃ e : Equiv.Perm (Fin 256),
      jsShuffle random = fun k => ((e k : Fin 256) : ℕ) := by
  have h := fyAux_perm random hr 255 (by norm_num) (Equiv.refl (Fin 256))
  simpa [jsShuffle] using h

/-- C7: for any random source satisfying the `Math.random` contract, the
`perm` table built by `makeNoise2D` has all 512 entries in `[0, 255]`, its
second half duplicates its first half, and every value in `[0, 255]` occurs
exactly twice among the 512 entries. -/
theorem permTable_invariants (random : ℕ → ℚ)
    (hr : ∀ k, 0 ≤ random k ∧ random k < 1) :
    (∀ i : Fin 512, (makeNoise2D random).perm i ≤ 255)
    ∧ (∀ i : Fin 256,
        (makeNoise2D random).perm ⟨i.val + 256, by omega⟩ =
          (makeNoise2D random).perm ⟨i.val, by omega⟩)
    ∧ (∀ v : ℕ, v ≤ 255 →
        (Finset.univ.filter
          (fun i : Fin 512 => (makeNoise2D random).perm i = v)).card = 2) := by
  obtain ⟨e, he⟩ := jsShuffle_perm random hr
  have hperm : ∀ i : Fin 512,
      (makeNoise2D random).perm i =
        ((e ⟨i.val % 256, Nat.mod_lt _ (by norm_num)⟩ : Fin 256) : ℕ) := by
    intro i
    simp only [makeNoise2D, permTable, he]
  refine ⟨?_, ?_, ?_⟩
  · intro i
    rw [hperm]
    have := (e ⟨i.val % 256, Nat.mod_lt _ (by norm_num)⟩).isLt
    omega
  · intro i
    rw [hperm, hperm]
    have h256 : (i.val + 256) % 256 = i.val % 256 := by omega
    simp only [h256]
  · intro v hv
    set u : Fin 256 := e.symm ⟨v, by omega⟩ with hu
    have key : ∀ i : Fin 512,
        (makeNoise2D random).perm i = v ↔
          (i = ⟨u.val, by omega⟩ ∨ i = ⟨u.val + 256, by omega⟩) := by
      intro i
      rw [hperm]
      constructor
      · intro h
        have hfin : e ⟨i.val % 256, Nat.mod_lt _ (by norm_num)⟩ = ⟨v, by omega⟩ :=
          Fin.ext h
        have hmod : (⟨i.val % 256, Nat.mod_lt _ (by norm_num)⟩ : Fin 256) = u := by
          rw [hu]
          exact (Equiv.symm_apply_eq e).mpr hfin.symm |>.symm
        have hval : i.val % 256 = u.val := congrArg Fin.val hmod
        have hi := i.isLt
        have : i.val = u.val ∨ i.val = u.val + 256 := by omega
        rcases this with h' | h'
        · exact Or.inl (Fin.ext h')
        · exact Or.inr (Fin.ext h')
      · intro h
        have heu : e u = ⟨v, by omega⟩ := Equiv.apply_symm_apply e _
        rcases h with h' | h' <;> subst h'
        · have : (⟨u.val % 256, Nat.mod_lt _ (by norm_num)⟩ : Fin 256) = u :=
            Fin.ext (Nat.mod_eq_of_lt u.isLt)
          rw [this, heu]
        · have hmod : (u.val + 256) % 256 = u.val := by
            have := u.isLt
            omega
          have : (⟨(u.val + 256) % 256, Nat.mod_lt _ (by norm_num)⟩ : Fin 256) = u :=
            Fin.ext hmod
          rw [this, heu]
    have hset : Finset.univ.filter
        (fun i : Fin 512 => (makeNoise2D random).perm i = v) =
          ({⟨u.val, by omega⟩, ⟨u.val + 256, by omega⟩} : Finset (Fin 512)) := by
      ext i
      simp only [Finset.mem_filter, Finset.mem_univ, true_and, Finset.mem_insert,
        Finset.mem_singleton]
      exact key i
    rw [hset]
    rw [Finset.card_insert_of_not_mem (by
      simp only [Finset.mem_singleton]
      intro h
      simp only [Fin.mk.injEq] at h
      omega)]
    simp

/-- Witness for the table invariants at the constant-zero random source,
which satisfies the `Math.random` contract. -/
theorem permTable_invariants_witness :
    (∀ k : ℕ, 0 ≤ (fun _ : ℕ => (0 : ℚ)) k ∧ (fun _ : ℕ => (0 : ℚ)) k < 1)
    ∧ ((∀ i : Fin 512, (makeNoise2D (fun _ => 0)).perm i ≤ 255)
      ∧ (∀ i : Fin 256,
          (makeNoise2D (fun _ => 0)).perm ⟨i.val + 256, by omega⟩ =
            (makeNoise2D (fun _ => 0)).perm ⟨i.val, by omega⟩)
      ∧ (∀ v : ℕ, v ≤ 255 →
          (Finset.univ.filter
            (fun i : Fin 512 => (makeNoise2D (fun _ => 0)).perm i = v)).card = 2)) :=
  ⟨fun _ => by norm_num,
    permTable_invariants (fun _ => 0) (fun _ => by norm_num)⟩

/-- C10: the sample closures returned for any two random sources agree
everywhere — the closure never reads `perm` or `permMod12`, so its output
depends on `(x, y)` only and is independent of the seeded shuffle. -/
theorem makeNoise2D_noise_ignores_tables (r1 r2 : ℕ → ℚ) :
    ∀ x y : ℝ, (makeNoise2D r1).noise x y = (makeNoise2D r2).noise x y :=
  fun _ _ => rfl

/-! ### Application state and regeneration (`generateNewMap`, lines 222-226)

The fields of `TopographicalMap` that the regeneration path touches or could
touch: the seed, the noise object built once in the constructor, the terrain
geometry (flat position array and index array) and the camera, whose type is
abstract since `generateNewMap` never inspects it. -/

structure AppState (Cam : Type) where
  seed : ℝ
  noise : Noise2D
  terrainPosition : List ℝ
  terrainIndex : List ℕ
  terrainNeedsUpdate : Bool
  camera : Cam

/-- `updateTerrain()` on the application state: repopulate every vertex
height from the current noise closure and seed and mark the buffer dirty. -/
noncomputable def appUpdateTerrain {Cam : Type} (st : AppState Cam) : AppState Cam :=
  { st with
    terrainPosition := updateVertices st.noise.noise st.seed st.terrainPosition
    terrainNeedsUpdate := true }

/-- `generateNewMap()`: draw one random number, store `rand * 1000` as the
new seed, and call `updateTerrain()`. Nothing else is touched. -/
noncomputable def generateNewMap {Cam : Type} (rand : ℝ) (st : AppState Cam) : AppState Cam :=
  appUpdateTerrain { st with seed := rand * 1000 }

/-- A concrete noise object with an all-zero permutation table. -/
noncomputable def noiseZero : Noise2D :=
  { perm := fun _ => 0, permMod12 := fun _ => 0, noise := fun _ _ => 0 }

/-- A concrete noise object with an all-one permutation table. -/
noncomputable def noiseOne : Noise2D :=
  { perm := fun _ => 1, permMod12 := fun _ => 1, noise := fun _ _ => 0 }

/-- A concrete application state carrying `noiseZero`. -/
noncomputable def stZero : AppState Unit :=
  { seed := 0, noise := noiseZero, terrainPosition := [], terrainIndex := []
    terrainNeedsUpdate := false, camera := () }

/-- A concrete application state carrying `noiseOne`. -/
noncomputable def stOne : AppState Unit :=
  { seed := 0, noise := noiseOne, terrainPosition := [], terrainIndex := []
    terrainNeedsUpdate := false, camera := () }

/-- C6 counterexample: if `generateNewMap` rebuilt the permutation table from
the newly picked seed, the post-state table would be determined by that seed
alone; it is not — two states whose noise objects differ keep their different
tables through regeneration with the same draw, because `generateNewMap` only
stores the new seed and recomputes heights, never touching `this.noise`. -/
theorem generateNewMap_not_rebuilding_table :
    ¬ (∀ (Cam : Type) (rand : ℝ) (st st' : AppState Cam),
        (generateNewMap rand st).noise.perm = (generateNewMap rand st').noise.perm) := by
  intro h
  have h0 := congrFun (h Unit 1 stZero stOne) ⟨0, by norm_num⟩
  simp [generateNewMap, appUpdateTerrain, stZero, stOne, noiseZero, noiseOne] at h0

/-- C6 amended: `generateNewMap` stores the freshly drawn seed (scaled by
1000), repopulates every vertex height with that new seed through the
existing noise closure, and leaves the noise object (hence its permutation
table), the triangle index list, the vertex (x, y) components and the camera
unchanged. The permutation table is not rebuilt. -/
theorem generateNewMap_spec {Cam : Type} (rand : ℝ) (st : AppState Cam) :
    (generateNewMap rand st).seed = rand * 1000
    ∧ (generateNewMap rand st).noise = st.noise
    ∧ (generateNewMap rand st).terrainPosition =
        updateVertices st.noise.noise (rand * 1000) st.terrainPosition
    ∧ xyParts (generateNewMap rand st).terrainPosition = xyParts st.terrainPosition
    ∧ (generateNewMap rand st).terrainIndex = st.terrainIndex
    ∧ (generateNewMap rand st).camera = st.camera :=
  ⟨rfl, rfl, rfl, xyParts_updateVertices _ _ _, rfl, rfl⟩

end TopoMap
